import Mathlib

/-!
Verification of the dynamic_nets SI-spread simulator.

Shallow embedding of `dynamic_nets_direct.h`, `dynamic_nets_direct.cc` and
`dynamic_nets.h`.  C++ `double` values are modelled as `ℚ` (every operation the
program performs on them is a comparison, an addition/subtraction or a
multiplication; the one transcendental, `calcWeight`'s `exp`, is never applied
to any value the claims depend on).  The flat `states` array
(`vector<pair<double,double>>**`, indexed by `m_size*from + to`) is modelled as
a total function from the flat index to the list of records; the `infectedTime`
vector is a `List ℚ`.  The C++ parameter names `from`/`to` are Lean keywords
and are rendered `fr`/`toN`.  The netevo framework (`System`, `sys.rnd()`,
`SimulateMap::simulate`) is external to the repository; its pieces are modelled
from the spec where needed and are marked as such.  The pseudo-random stream
`sys.rnd()` is modelled as a function `rnd : ℕ → ℚ` together with a cursor that
counts how many numbers have been consumed.
-/

/-- The dynamic network of `dynamic_nets_direct.h` / `dynamic_nets.h`:
`m_size` nodes, a flat array of per-edge crossing lists (each record is the
pair `⟨crossing time, time other node was there⟩`) and the per-node
infected-time vector (initialised to the sentinel `-1.0`). -/
structure DynamicNet where
  m_size : ℕ
  states : ℕ → List (ℚ × ℚ)
  infectedTime : List ℚ

/-- `getState (int to, int from) { return *states[(m_size * from) + to]; }`.
The C++ parameter list names the first parameter `to` and the second `from`;
call sites below transcribe the source argument order verbatim. -/
def DynamicNet.getState (net : DynamicNet) (toN fr : ℕ) : List (ℚ × ℚ) :=
  net.states (net.m_size * fr + toN)

/-- Append one record to the cell at a flat index (`push_back` on
`*states[idx]`). -/
def DynamicNet.pushState (net : DynamicNet) (idx : ℕ) (r : ℚ × ℚ) : DynamicNet :=
  { net with states := Function.update net.states idx (net.states idx ++ [r]) }

/-- A freshly constructed net before any file line is processed: every cell
empty, `infectedTime = vector<double>(size, -1.0)`. -/
def DynamicNet.emptyNet (size : ℕ) : DynamicNet :=
  { m_size := size
    states := fun _ => []
    infectedTime := List.replicate size (-1 : ℚ) }

namespace Direct

/-- `dynamic_nets_direct.h` `addUpdate`: appends `(fromTime, toTime)` to
`getState(from, to)` (flat index `m_size*to + from`) and then to
`getState(to, from)` (flat index `m_size*from + to`). -/
def addUpdate (net : DynamicNet) (fr toN : ℕ) (fromTime toTime : ℚ) : DynamicNet :=
  (net.pushState (net.m_size * toN + fr) (fromTime, toTime)).pushState
    (net.m_size * fr + toN) (fromTime, toTime)

end Direct

namespace Indirect

/-- `dynamic_nets.h` `addUpdate`: appends `(fromTime, toTime)` to
`getState(from, to)` only (one direction). -/
def addUpdate (net : DynamicNet) (fr toN : ℕ) (fromTime toTime : ℚ) : DynamicNet :=
  net.pushState (net.m_size * toN + fr) (fromTime, toTime)

end Indirect

/-- The loop condition of `checkInteraction`, verbatim:
`(itr->first >= t_start && itr->first < t_end) || (itr->second >= t_start && itr->second < t_end)`. -/
def hitsWindow (t_start t_end : ℚ) (p : ℚ × ℚ) : Prop :=
  (p.1 ≥ t_start ∧ p.1 < t_end) ∨ (p.2 ≥ t_start ∧ p.2 < t_end)

instance (s e : ℚ) (p : ℚ × ℚ) : Decidable (hitsWindow s e p) := by
  unfold hitsWindow; infer_instance

/-- The scan loop of `checkInteraction`: return `1.0` at the first record
whose `first` or `second` component lies in `[t_start, t_end)`, else fall
through to `-1.0`. -/
def checkLoop (t_start t_end : ℚ) : List (ℚ × ℚ) → ℚ
  | [] => -1
  | p :: rest => if hitsWindow t_start t_end p then 1 else checkLoop t_start t_end rest

/-- `dynamic_nets_direct.h` `checkInteraction`: `-1.0` for an empty cell,
otherwise scan the cell `getState(from, to)` for a record with a component
inside `[t_start, t_end)`. -/
def DynamicNet.checkInteraction (net : DynamicNet) (fr toN : ℕ) (t_start t_end : ℚ) : ℚ :=
  if (net.getState fr toN).length = 0 then -1
  else checkLoop t_start t_end (net.getState fr toN)

lemma checkLoop_eq_ite (s e : ℚ) (l : List (ℚ × ℚ)) :
    checkLoop s e l = if ∃ p ∈ l, hitsWindow s e p then 1 else -1 := by
  induction l with
  | nil => simp [checkLoop]
  | cons p rest ih =>
      by_cases hp : hitsWindow s e p
      · rw [checkLoop, if_pos hp, if_pos ⟨p, List.mem_cons_self p rest, hp⟩]
      · rw [checkLoop, if_neg hp, ih]
        by_cases hr : ∃ q ∈ rest, hitsWindow s e q
        · rcases hr with ⟨q, hq, hw⟩
          rw [if_pos ⟨q, hq, hw⟩, if_pos ⟨q, List.mem_cons_of_mem p hq, hw⟩]
        · rw [if_neg hr, if_neg ?_]
          rintro ⟨q, hq, hw⟩
          rcases List.mem_cons.mp hq with rfl | hq2
          · exact hp hw
          · exact hr ⟨q, hq2, hw⟩

lemma checkInteraction_eq_ite (net : DynamicNet) (fr toN : ℕ) (s e : ℚ) :
    net.checkInteraction fr toN s e =
      if ∃ p ∈ net.getState fr toN, hitsWindow s e p then 1 else -1 := by
  unfold DynamicNet.checkInteraction
  by_cases hlen : (net.getState fr toN).length = 0
  · rw [if_pos hlen]
    rw [List.length_eq_zero] at hlen
    simp [hlen]
  · rw [if_neg hlen]
    exact checkLoop_eq_ite s e _

/-- Claim C2: `checkInteraction(from, to, s, e)` returns `1.0` iff some record
in cell `(from, to)` has its `t1` or `t2` in `[s, e)`, and returns `-1.0`
exactly otherwise (in particular for an empty cell or a disjoint window). -/
theorem checkInteraction_one_iff_hit (net : DynamicNet) (fr toN : ℕ) (s e : ℚ) :
    (net.checkInteraction fr toN s e = 1 ↔
      ∃ p ∈ net.getState fr toN, hitsWindow s e p) ∧
    (net.checkInteraction fr toN s e = -1 ↔
      ¬ ∃ p ∈ net.getState fr toN, hitsWindow s e p) := by
  rw [checkInteraction_eq_ite]
  by_cases h : ∃ p ∈ net.getState fr toN, hitsWindow s e p
  · rw [if_pos h]
    constructor
    · exact ⟨fun _ => h, fun _ => rfl⟩
    · constructor
      · intro h1; exact absurd h1 (by norm_num)
      · intro hn; exact absurd h hn
  · rw [if_neg h]
    constructor
    · constructor
      · intro h1; exact absurd h1 (by norm_num)
      · intro hp; exact absurd hp h
    · exact ⟨fun _ => h, fun _ => rfl⟩

/-- The tracking loop of `getTimeSinceUpdate`: walk the cell, overwriting
`(l, r)` with each record whose `first ≤ t`, stopping at the first record
with `first > t`.  `l` and `r` start at `0.0`. -/
def tsLoop (t : ℚ) : List (ℚ × ℚ) → ℚ × ℚ → ℚ × ℚ
  | [], lr => lr
  | p :: rest, lr => if p.1 > t then lr else tsLoop t rest (p.1, p.2)

/-- `dynamic_nets.h` `getTimeSinceUpdate`: `-1.0` for an empty cell or when
`t` precedes the first record's `first`; otherwise track the last record with
`first ≤ t` and return `t - second` when its `first` equals `t` exactly,
else `-1.0`. -/
def DynamicNet.getTimeSinceUpdate (net : DynamicNet) (fr toN : ℕ) (t : ℚ) : ℚ :=
  if (net.getState fr toN).length = 0 then -1
  else if ((net.getState fr toN).headD (0, 0)).1 > t then -1
  else
    let lr := tsLoop t (net.getState fr toN) (0, 0)
    if t = lr.1 then t - lr.2 else -1

/-- Under the ascending-`first` sortedness assumption the tracking loop
computes the last record whose `first ≤ t` (or returns the accumulator when
there is none). -/
lemma tsLoop_eq_getLast (t : ℚ) (l : List (ℚ × ℚ)) (lr : ℚ × ℚ)
    (hs : List.Pairwise (fun p q : ℚ × ℚ => p.1 ≤ q.1) l) :
    tsLoop t l lr = ((l.filter fun q => decide (q.1 ≤ t)).getLast?).getD lr := by
  induction l generalizing lr with
  | nil => simp [tsLoop]
  | cons p rest ih =>
      rcases List.pairwise_cons.mp hs with ⟨hhead, hrest⟩
      by_cases hp : p.1 > t
      · rw [tsLoop, if_pos hp]
        have hfil : (p :: rest).filter (fun q => decide (q.1 ≤ t)) = [] := by
          rw [List.filter_eq_nil_iff]
          intro q hq
          simp only [decide_eq_true_eq]
          rcases List.mem_cons.mp hq with rfl | hq2
          · exact not_le_of_lt hp
          · exact fun hle => absurd (le_trans (hhead q hq2) hle) (not_le_of_lt hp)
        rw [hfil]
        rfl
      · rw [tsLoop, if_neg hp, ih _ hrest]
        have hple : decide (p.1 ≤ t) = true := by
          simp only [decide_eq_true_eq]; exact le_of_not_lt hp
        rw [List.filter_cons, if_pos hple]
        rcases hfe : rest.filter (fun q => decide (q.1 ≤ t)) with _ | ⟨q, l2⟩
        · rw [hfe]
          rfl
        · rw [hfe, List.getLast?_cons_cons]
          rw [List.getLast?_eq_getLast (q :: l2) (by simp)]
          rfl

/-- Claim C3: for a cell sorted ascending by `first`, `getTimeSinceUpdate`
returns `-1.0` when the cell is empty or `t` strictly precedes the first
record's `t1`; and when the last record with `t1 ≤ t` exists it returns
`t - t2` of that record if its `t1` equals `t` exactly and `-1.0` otherwise. -/
theorem getTimeSinceUpdate_characterisation (net : DynamicNet) (fr toN : ℕ) (t : ℚ)
    (hs : List.Pairwise (fun p q : ℚ × ℚ => p.1 ≤ q.1) (net.getState fr toN)) :
    (net.getState fr toN = [] → net.getTimeSinceUpdate fr toN t = -1) ∧
    (∀ p0 ∈ (net.getState fr toN).head?, t < p0.1 → net.getTimeSinceUpdate fr toN t = -1) ∧
    (∀ p, ((net.getState fr toN).filter fun q => decide (q.1 ≤ t)).getLast? = some p →
      net.getTimeSinceUpdate fr toN t = if p.1 = t then t - p.2 else -1) := by
  refine ⟨?_, ?_, ?_⟩
  · intro hnil
    unfold DynamicNet.getTimeSinceUpdate
    rw [if_pos (by rw [hnil]; rfl)]
  · intro p0 hp0 hlt
    rcases hst : net.getState fr toN with _ | ⟨q, l2⟩
    · unfold DynamicNet.getTimeSinceUpdate
      rw [if_pos (by rw [hst]; rfl)]
    · rw [hst] at hp0
      simp only [List.head?_cons, Option.mem_def, Option.some.injEq] at hp0
      unfold DynamicNet.getTimeSinceUpdate
      rw [if_neg (by rw [hst]; simp), hst]
      rw [if_pos (by simpa [hp0] using hlt)]
  · intro p hlast
    have hpmem : p ∈ (net.getState fr toN).filter fun q => decide (q.1 ≤ t) :=
      List.mem_of_getLast?_eq_some hlast
    have hpmem2 : p ∈ net.getState fr toN := (List.mem_filter.mp hpmem).1
    have hple : p.1 ≤ t := by
      have := (List.mem_filter.mp hpmem).2
      simpa using this
    rcases hst : net.getState fr toN with _ | ⟨q, l2⟩
    · rw [hst] at hpmem2; exact absurd hpmem2 (List.not_mem_nil p)
    · have hq1 : q.1 ≤ t := by
        rw [hst] at hpmem2 hs
        rcases List.mem_cons.mp hpmem2 with rfl | hp2
        · exact hple
        · exact le_trans ((List.pairwise_cons.mp hs).1 p hp2) hple
      unfold DynamicNet.getTimeSinceUpdate
      rw [if_neg (by rw [hst]; simp)]
      rw [hst]
      rw [if_neg (by simp only [List.headD_cons]; exact not_lt_of_le hq1)]
      have hloop := tsLoop_eq_getLast t (net.getState fr toN) (0, 0) hs
      rw [hst] at hloop
      rw [hloop]
      rw [hst] at hlast
      rw [hlast]
      simp only [Option.getD_some]
      by_cases hteq : p.1 = t
      · rw [if_pos (by rw [hteq]), if_pos hteq]
      · rw [if_neg (fun h => hteq h.symm), if_neg hteq]

/-- Concrete witness for claim C3: a two-record sorted cell, queried at the
second record's `t1`, returns `t - t2` of that record. -/
theorem getTimeSinceUpdate_characterisation_witness :
    ({ m_size := 2
       states := fun idx => if idx = 1 then [((1 : ℚ), 5), (3, 7)] else []
       infectedTime := [-1, -1] } : DynamicNet).getTimeSinceUpdate 1 0 3 = 3 - 7 := by
  have h := getTimeSinceUpdate_characterisation
    { m_size := 2
      states := fun idx => if idx = 1 then [((1 : ℚ), 5), (3, 7)] else []
      infectedTime := [-1, -1] } 1 0 3 (by decide)
  have h3 := h.2.2 ((3 : ℚ), 7) (by decide)
  rw [h3]
  norm_num

/-- The in-range effect of `setInfectedTime` as invoked by the simulation
(`infectedTime->at(node) = time`): a total write.  `List.set` is the identity
out of range, matching no call site of the simulation (every such call uses a
node id below the population size); the bounds-checked accessors themselves
are modelled separately for the accessor claims. -/
def DynamicNet.writeInfectedTime (net : DynamicNet) (node : ℕ) (time : ℚ) : DynamicNet :=
  { net with infectedTime := net.infectedTime.set node time }

/-- `getInfectedTime (int node) { return infectedTime->at(node); }` with the
`vector::at` bounds check explicit: `none` models the thrown
`std::out_of_range` (a negative `int` index converts to a huge unsigned
`size_type`, hence is also out of range). -/
def DynamicNet.getInfectedTime (net : DynamicNet) (node : ℤ) : Option ℚ :=
  if 0 ≤ node then net.infectedTime[node.toNat]? else none

/-- `setInfectedTime (int node, double time) { infectedTime->at(node) = time; }`
with the `vector::at` bounds check explicit. -/
def DynamicNet.setInfectedTime (net : DynamicNet) (node : ℤ) (time : ℚ) : Option DynamicNet :=
  if 0 ≤ node ∧ node.toNat < net.infectedTime.length then
    some { net with infectedTime := net.infectedTime.set node.toNat time }
  else none

/-- The parameters of the `SIMap` node dynamic (`dynamic_nets_direct.cc`).
The C++ object also holds a reference `m_net` to the dynamic net; because
`fn` writes the net's infected-time table, the net is threaded explicitly
through the embedded `fn` instead. -/
structure SIMap where
  m_probSI : ℚ
  m_decayRate : ℚ
  m_ts : ℚ

/-- The neighbour scan of `SIMap::fn` over a list of candidate indices `i`
(the source iterates `i = 0 .. m_net.getSize()-1`), carrying the random
cursor `c`.  For an uninfected scan survivor the source falls through to
`dx[vID] = x[vID]`. -/
def SIMap.fnLoop (m : SIMap) (net : DynamicNet) (rnd : ℕ → ℚ) (x : ℕ → ℚ)
    (vID : ℕ) (tt : ℚ) : List ℕ → ℕ → ℚ × DynamicNet × ℕ
  | [], c => (x vID, net, c)
  | i :: rest, c =>
      if i ≠ vID ∧ x i = 1 then
        if net.checkInteraction i vID tt (tt + m.m_ts) ≠ -1 then
          if rnd c ≤ m.m_probSI then (1, net.writeInfectedTime vID tt, c + 1)
          else m.fnLoop net rnd x vID tt rest (c + 1)
        else m.fnLoop net rnd x vID tt rest c
      else m.fnLoop net rnd x vID tt rest c

/-- `SIMap::fn` for node `vID` at integration time `t`: with `tt = m_ts * t`,
an uninfected node scans all nodes `0 .. m_net.getSize()-1`; any other node
leaves its state unchanged (`dx[vID] = x[vID]`).  `sys.rnd()` is the shared
stream `rnd` at cursor `c`; the result is `(dx[vID], updated net, new cursor)`. -/
def SIMap.fn (m : SIMap) (net : DynamicNet) (rnd : ℕ → ℚ) (x : ℕ → ℚ)
    (vID : ℕ) (t : ℚ) (c : ℕ) : ℚ × DynamicNet × ℕ :=
  if x vID = 0 then m.fnLoop net rnd x vID (m.m_ts * t) (List.range net.m_size) c
  else (x vID, net, c)

/-- Claim C1 helper, following the spec's words: the qualifying neighbours of
`v` for window `[tt, tt + ts)`, in index order — the infected nodes `i ≠ v`
whose contact query succeeds. -/
def siCandidates (net : DynamicNet) (x : ℕ → ℚ) (vID : ℕ) (tt ts : ℚ) : List ℕ :=
  (List.range net.m_size).filter fun i =>
    decide (i ≠ vID ∧ x i = 1 ∧ net.checkInteraction i vID tt (tt + ts) ≠ -1)

/-- Claim C1 helper, following the spec's words: the position of the first
success among `len` consecutive draws starting at cursor `c` (draw `j` is
`rnd (c + j)`, a success iff it is `≤ prob`). -/
def firstSuccess (rnd : ℕ → ℚ) (prob : ℚ) : ℕ → ℕ → Option ℕ
  | _, 0 => none
  | c, len + 1 =>
      if rnd c ≤ prob then some 0
      else (firstSuccess rnd prob (c + 1) len).map (· + 1)

lemma fnLoop_characterisation (m : SIMap) (net : DynamicNet) (rnd : ℕ → ℚ)
    (x : ℕ → ℚ) (vID : ℕ) (tt : ℚ) (l : List ℕ) (c : ℕ) :
    m.fnLoop net rnd x vID tt l c =
      match firstSuccess rnd m.m_probSI c
          (l.filter fun i =>
            decide (i ≠ vID ∧ x i = 1 ∧
              net.checkInteraction i vID tt (tt + m.m_ts) ≠ -1)).length with
      | some j => (1, net.writeInfectedTime vID tt, c + j + 1)
      | none =>
          (x vID, net,
            c + (l.filter fun i =>
              decide (i ≠ vID ∧ x i = 1 ∧
                net.checkInteraction i vID tt (tt + m.m_ts) ≠ -1)).length) := by
  induction l generalizing c with
  | nil => simp [SIMap.fnLoop, firstSuccess]
  | cons i rest ih =>
      by_cases hP : i ≠ vID ∧ x i = 1 ∧ net.checkInteraction i vID tt (tt + m.m_ts) ≠ -1
      · rw [List.filter_cons,
          if_pos (show decide (i ≠ vID ∧ x i = 1 ∧
            net.checkInteraction i vID tt (tt + m.m_ts) ≠ -1) = true by simpa using hP)]
        rw [SIMap.fnLoop, if_pos ⟨hP.1, hP.2.1⟩, if_pos hP.2.2]
        simp only [List.length_cons]
        by_cases h3 : rnd c ≤ m.m_probSI
        · rw [if_pos h3, firstSuccess, if_pos h3]
        · rw [if_neg h3, firstSuccess, if_neg h3, ih]
          rcases hfs : firstSuccess rnd m.m_probSI (c + 1)
              (rest.filter fun i =>
                decide (i ≠ vID ∧ x i = 1 ∧
                  net.checkInteraction i vID tt (tt + m.m_ts) ≠ -1)).length
            with _ | j
          · simp only [Option.map_none']
            refine congrArg (fun z => ((x vID : ℚ), net, z)) ?_
            omega
          · simp only [Option.map_some']
            refine congrArg (fun z => ((1 : ℚ), net.writeInfectedTime vID tt, z)) ?_
            omega
      · rw [List.filter_cons, if_neg (by simpa using hP)]
        by_cases h1 : i ≠ vID ∧ x i = 1
        · have h2 : ¬ net.checkInteraction i vID tt (tt + m.m_ts) ≠ -1 :=
            fun hc => hP ⟨h1.1, h1.2, hc⟩
          rw [SIMap.fnLoop, if_pos h1, if_neg h2, ih]
        · rw [SIMap.fnLoop, if_neg h1, ih]

/-- `SIMap::fn` never reads `m_decayRate` (the `calcWeight` decay is computed
elsewhere and not applied to the probability). -/
lemma fnLoop_decayRate_irrelevant (p d d2 ts : ℚ) (net : DynamicNet) (rnd : ℕ → ℚ)
    (x : ℕ → ℚ) (vID : ℕ) (tt : ℚ) (l : List ℕ) (c : ℕ) :
    SIMap.fnLoop ⟨p, d, ts⟩ net rnd x vID tt l c =
      SIMap.fnLoop ⟨p, d2, ts⟩ net rnd x vID tt l c := by
  induction l generalizing c with
  | nil => rfl
  | cons i rest ih =>
      simp only [SIMap.fnLoop]
      by_cases h1 : i ≠ vID ∧ x i = 1
      · rw [if_pos h1, if_pos h1]
        by_cases h2 : net.checkInteraction i vID tt (tt + ts) ≠ -1
        · rw [if_pos h2, if_pos h2]
          by_cases h3 : rnd c ≤ p
          · rw [if_pos h3, if_pos h3]
          · rw [if_neg h3, if_neg h3, ih]
        · rw [if_neg h2, if_neg h2, ih]
      · rw [if_neg h1, if_neg h1, ih]

/-- Claim C1: for a Susceptible node `v` (`x[v] = 0`), `SIMap::fn` scans the
qualifying infected contacts of `v` in index order over the window
`[m_ts·t, m_ts·t + m_ts)`, consumes one random draw per qualifying contact,
and on the first draw `≤ probSI` infects `v`, records the window start
`m_ts·t` as `v`'s infected time and stops; if every draw fails, `v` stays
Susceptible with `#candidates` draws consumed.  The comparison uses the raw
`m_probSI`: the result does not depend on `m_decayRate` at all. -/
theorem SIMap_fn_si_transition_rule (m : SIMap) (net : DynamicNet) (rnd : ℕ → ℚ)
    (x : ℕ → ℚ) (vID : ℕ) (t : ℚ) (c : ℕ) (hx : x vID = 0) :
    (m.fn net rnd x vID t c =
      match firstSuccess rnd m.m_probSI c
          (siCandidates net x vID (m.m_ts * t) m.m_ts).length with
      | some j =>
          (1, net.writeInfectedTime vID (m.m_ts * t), c + j + 1)
      | none =>
          (0, net, c + (siCandidates net x vID (m.m_ts * t) m.m_ts).length)) ∧
    (∀ d : ℚ, SIMap.fn ⟨m.m_probSI, d, m.m_ts⟩ net rnd x vID t c =
      m.fn net rnd x vID t c) := by
  constructor
  · rw [SIMap.fn, if_pos hx, fnLoop_characterisation]
    rw [show (List.filter (fun i =>
        decide (i ≠ vID ∧ x i = 1 ∧
          net.checkInteraction i vID (m.m_ts * t) (m.m_ts * t + m.m_ts) ≠ -1))
        (List.range net.m_size)) = siCandidates net x vID (m.m_ts * t) m.m_ts from rfl]
    rcases firstSuccess rnd m.m_probSI c
        (siCandidates net x vID (m.m_ts * t) m.m_ts).length with _ | j
    · rw [hx]
    · rfl
  · intro d
    rw [SIMap.fn, SIMap.fn]
    by_cases hx0 : x vID = 0
    · rw [if_pos hx0, if_pos hx0]
      exact fnLoop_decayRate_irrelevant m.m_probSI d m.m_decayRate m.m_ts net rnd x vID
        (m.m_ts * t) (List.range net.m_size) c
    · rw [if_neg hx0, if_neg hx0]

/-- Concrete witness for claim C1: population 2, node 0 infected, node 1
susceptible, one contact in the first window, `probSI = 1`, a stream of
zero draws: the first draw succeeds, node 1 is infected at window start 0,
and one random number is consumed. -/
theorem SIMap_fn_si_transition_rule_witness :
    ((fun v : ℕ => if v = 0 then (1 : ℚ) else 0) 1 = 0) ∧
    (SIMap.fn ⟨1, 0, 1⟩ (Direct.addUpdate (DynamicNet.emptyNet 2) 0 1 0 0)
        (fun _ => 0) (fun v : ℕ => if v = 0 then (1 : ℚ) else 0) 1 0 0 =
      match firstSuccess (fun _ => 0) (1 : ℚ) 0
          (siCandidates (Direct.addUpdate (DynamicNet.emptyNet 2) 0 1 0 0)
            (fun v : ℕ => if v = 0 then (1 : ℚ) else 0) 1 ((1 : ℚ) * 0) 1).length with
      | some j =>
          (1, (Direct.addUpdate (DynamicNet.emptyNet 2) 0 1 0 0).writeInfectedTime 1
            ((1 : ℚ) * 0), 0 + j + 1)
      | none =>
          (0, Direct.addUpdate (DynamicNet.emptyNet 2) 0 1 0 0,
            0 + (siCandidates (Direct.addUpdate (DynamicNet.emptyNet 2) 0 1 0 0)
              (fun v : ℕ => if v = 0 then (1 : ℚ) else 0) 1 ((1 : ℚ) * 0) 1).length)) :=
  ⟨by decide,
    (SIMap_fn_si_transition_rule ⟨1, 0, 1⟩
      (Direct.addUpdate (DynamicNet.emptyNet 2) 0 1 0 0) (fun _ => 0)
      (fun v : ℕ => if v = 0 then (1 : ℚ) else 0) 1 0 0 (by decide)).1⟩

/-- Modelled from the spec: the netevo `SimulateMap` driver (external to this
repository) advances the map dynamics one timestep by applying the node
dynamic `fn` to every node in index order `0 .. N-1`, each call reading the
unchanged current state `x` and writing only its own entry of the next state
`dx`, while the shared net (infected-time writes) and the single shared
random stream thread through the scan.  `dx` starts as a copy of `x`; the
source's `fn` overwrites its own entry on every path, so the start value is
never read back. -/
def stepNodes (m : SIMap) (rnd : ℕ → ℚ) (x : ℕ → ℚ) (t : ℚ) :
    List ℕ → (ℕ → ℚ) → DynamicNet → ℕ → ((ℕ → ℚ) × DynamicNet × ℕ)
  | [], dx, net, c => (dx, net, c)
  | v :: rest, dx, net, c =>
      let r := m.fn net rnd x v t c
      stepNodes m rnd x t rest (Function.update dx v r.1) r.2.1 r.2.2

/-- Modelled from the spec: one whole timestep of the map simulation at
integration time `t`. -/
def stepSystem (m : SIMap) (rnd : ℕ → ℚ) (st : (ℕ → ℚ) × DynamicNet × ℕ)
    (t : ℚ) : (ℕ → ℚ) × DynamicNet × ℕ :=
  stepNodes m rnd st.1 t (List.range st.2.1.m_size) st.1 st.2.1 st.2.2

/-- Modelled from the spec: the system after `n` timesteps of one run, the
timestep counter supplying the integration times `t = 0, 1, 2, ...`. -/
def simState (m : SIMap) (rnd : ℕ → ℚ) (x0 : ℕ → ℚ) (net : DynamicNet) (c : ℕ) :
    ℕ → ((ℕ → ℚ) × DynamicNet × ℕ)
  | 0 => (x0, net, c)
  | n + 1 => stepSystem m rnd (simState m rnd x0 net c n) (n : ℚ)

/-- An infected node is left untouched by `fn`: `x[vID] != 0` skips the scan
and falls through to `dx[vID] = x[vID]`. -/
lemma fn_of_infected (m : SIMap) (net : DynamicNet) (rnd : ℕ → ℚ) (x : ℕ → ℚ)
    (vID : ℕ) (t : ℚ) (c : ℕ) (hx : x vID = 1) :
    m.fn net rnd x vID t c = (x vID, net, c) := by
  rw [SIMap.fn, if_neg (by rw [hx]; norm_num)]

lemma stepNodes_preserves_one (m : SIMap) (rnd : ℕ → ℚ) (x : ℕ → ℚ) (t : ℚ)
    (v : ℕ) (hx : x v = 1) :
    ∀ (l : List ℕ) (dx : ℕ → ℚ) (net : DynamicNet) (c : ℕ), dx v = 1 →
      (stepNodes m rnd x t l dx net c).1 v = 1 := by
  intro l
  induction l with
  | nil => intro dx net c hdx; exact hdx
  | cons w rest ih =>
      intro dx net c hdx
      rw [stepNodes]
      apply ih
      by_cases hwv : w = v
      · subst hwv
        rw [Function.update_same]
        rw [fn_of_infected m net rnd x w t c hx]
        exact hx
      · rw [Function.update_noteq (fun h => hwv h.symm)]
        exact hdx

lemma stepSystem_preserves_one (m : SIMap) (rnd : ℕ → ℚ)
    (st : (ℕ → ℚ) × DynamicNet × ℕ) (t : ℚ) (v : ℕ) (hv : st.1 v = 1) :
    (stepSystem m rnd st t).1 v = 1 :=
  stepNodes_preserves_one m rnd st.1 t v hv _ st.1 st.2.1 st.2.2 hv

/-- Claim C4: infection is monotone within a run — if node `v` is Infected
(state `1`) at timestep `k` then it is Infected at every timestep `k' ≥ k`;
no Infected-to-Susceptible transition ever occurs. -/
theorem infection_monotone (m : SIMap) (rnd : ℕ → ℚ) (x0 : ℕ → ℚ)
    (net : DynamicNet) (c : ℕ) (v k k2 : ℕ) (hk : k ≤ k2)
    (h1 : (simState m rnd x0 net c k).1 v = 1) :
    (simState m rnd x0 net c k2).1 v = 1 := by
  induction k2, hk using Nat.le_induction with
  | base => exact h1
  | succ n hn ih =>
      rw [simState]
      exact stepSystem_preserves_one m rnd _ _ v ih

/-- Concrete witness for claim C4: the seed node of a two-node system is
Infected at timestep 0 and still Infected at timestep 2. -/
theorem infection_monotone_witness :
    (simState ⟨1, 0, 1⟩ (fun _ => 0) (fun v : ℕ => if v = 0 then (1 : ℚ) else 0)
      (DynamicNet.emptyNet 2) 0 2).1 0 = 1 :=
  infection_monotone ⟨1, 0, 1⟩ (fun _ => 0)
    (fun v : ℕ => if v = 0 then (1 : ℚ) else 0) (DynamicNet.emptyNet 2) 0 0 0 2
    (by decide) (by decide)

/-- Counterexample to claim C7 as stated: with `SI_PROB = 0.0` a transition
still occurs when a draw is exactly `0` — the source compares
`sys.rnd() <= m_probSI`, and `0 ≤ 0` holds.  Here node 1 has a contact with
the infected node 0 in the first window, every draw is `0`, and node 1 is
Infected after one timestep despite `probSI = 0`. -/
theorem si_prob_zero_counterexample :
    (simState ⟨0, 0, 1⟩ (fun _ => 0)
      (fun v : ℕ => if v = 0 then (1 : ℚ) else 0)
      (Direct.addUpdate (DynamicNet.emptyNet 2) 0 1 0 0) 0 1).1 1 = 1 := by
  norm_num [simState, stepSystem, stepNodes, SIMap.fn, SIMap.fnLoop,
    List.range_succ, DynamicNet.checkInteraction, DynamicNet.getState,
    Direct.addUpdate, DynamicNet.pushState, DynamicNet.emptyNet, checkLoop,
    hitsWindow, Function.update, DynamicNet.writeInfectedTime]

lemma fnLoop_no_success (m : SIMap) (net : DynamicNet) (rnd : ℕ → ℚ)
    (x : ℕ → ℚ) (vID : ℕ) (tt : ℚ) (hp : m.m_probSI = 0)
    (hr : ∀ n, 0 < rnd n) :
    ∀ (l : List ℕ) (c : ℕ), ∃ c2, m.fnLoop net rnd x vID tt l c = (x vID, net, c2) := by
  intro l
  induction l with
  | nil => intro c; exact ⟨c, rfl⟩
  | cons i rest ih =>
      intro c
      rw [SIMap.fnLoop]
      by_cases h1 : i ≠ vID ∧ x i = 1
      · rw [if_pos h1]
        by_cases h2 : net.checkInteraction i vID tt (tt + m.m_ts) ≠ -1
        · rw [if_pos h2, if_neg (by rw [hp]; exact not_le_of_lt (hr c))]
          exact ih (c + 1)
        · rw [if_neg h2]
          exact ih c
      · rw [if_neg h1]
        exact ih c

lemma fn_no_success (m : SIMap) (net : DynamicNet) (rnd : ℕ → ℚ)
    (x : ℕ → ℚ) (vID : ℕ) (t : ℚ) (c : ℕ) (hp : m.m_probSI = 0)
    (hr : ∀ n, 0 < rnd n) :
    ∃ c2, m.fn net rnd x vID t c = (x vID, net, c2) := by
  rw [SIMap.fn]
  by_cases hx : x vID = 0
  · rw [if_pos hx]
    exact fnLoop_no_success m net rnd x vID (m.m_ts * t) hp hr _ c
  · rw [if_neg hx]
    exact ⟨c, rfl⟩

lemma stepNodes_state_const (m : SIMap) (rnd : ℕ → ℚ) (x : ℕ → ℚ) (t : ℚ)
    (hp : m.m_probSI = 0) (hr : ∀ n, 0 < rnd n) :
    ∀ (l : List ℕ) (dx : ℕ → ℚ) (net : DynamicNet) (c : ℕ),
      (∀ w, dx w = x w) → ∀ v, (stepNodes m rnd x t l dx net c).1 v = x v := by
  intro l
  induction l with
  | nil => intro dx net c hdx v; exact hdx v
  | cons w rest ih =>
      intro dx net c hdx v
      rw [stepNodes]
      rcases fn_no_success m net rnd x w t c hp hr with ⟨c2, hfn⟩
      apply ih
      intro u
      rw [hfn]
      by_cases huw : u = w
      · subst huw; rw [Function.update_same]
      · rw [Function.update_noteq huw]; exact hdx u

/-- Claim C7, amended: with `SI_PROB = 0.0` no transition ever occurs
*provided every random draw is strictly positive* — the state vector is
unchanged at every timestep (so every node other than the seed stays
Susceptible).  The proviso is forced by the counterexample above: a draw of
exactly `0.0` passes the source's `<=` comparison. -/
theorem si_prob_zero_no_transition (m : SIMap) (rnd : ℕ → ℚ) (x0 : ℕ → ℚ)
    (net : DynamicNet) (c : ℕ) (hp : m.m_probSI = 0) (hr : ∀ n, 0 < rnd n) :
    ∀ (k : ℕ) (v : ℕ), (simState m rnd x0 net c k).1 v = x0 v := by
  intro k
  induction k with
  | zero => intro v; rfl
  | succ n ih =>
      intro v
      rw [simState, stepSystem]
      rw [stepNodes_state_const m rnd _ _ hp hr _ _ _ _ (fun _ => rfl) v]
      exact ih v

/-- Concrete witness for the amended claim C7: `probSI = 0`, all draws `1`,
a contact present — the susceptible node 1 is still Susceptible after one
timestep. -/
theorem si_prob_zero_no_transition_witness :
    (simState ⟨0, 0, 1⟩ (fun _ => 1)
      (fun v : ℕ => if v = 0 then (1 : ℚ) else 0)
      (Direct.addUpdate (DynamicNet.emptyNet 2) 0 1 0 0) 0 1).1 1 =
      (fun v : ℕ => if v = 0 then (1 : ℚ) else 0) 1 :=
  si_prob_zero_no_transition ⟨0, 0, 1⟩ (fun _ => 1)
    (fun v : ℕ => if v = 0 then (1 : ℚ) else 0)
    (Direct.addUpdate (DynamicNet.emptyNet 2) 0 1 0 0) 0 (by decide)
    (fun _ => by norm_num) 1 1

/-- The initial state built by `doRuns` before its trial loop:
`State initial = State(sys.totalStates(), 0.0); initial[ant] = 1.0`. -/
def doRunsInitial (ant : ℕ) : ℕ → ℚ := fun v => if v = ant then 1 else 0

/-- `doRuns`: the observable snapshot as trial `i` is about to start — the
state vector the trial will run from, and the persistent objects (the
dynamic net with its infected-time table, and the random cursor).  Before
the loop `doRuns` executes `dynNet.setInfectedTime(ant, 0.0)` once; each
loop iteration copies `initial` afresh (`State initialCopy = initial`) and
calls the (spec-modelled) simulate for `simLen` timesteps, which returns
the mutated net and advanced cursor to the next iteration. -/
def doRunsTrialStart (m : SIMap) (rnd : ℕ → ℚ) (net : DynamicNet) (ant : ℕ)
    (simLen c0 : ℕ) : ℕ → ((ℕ → ℚ) × DynamicNet × ℕ)
  | 0 => (doRunsInitial ant, net.writeInfectedTime ant 0, c0)
  | i + 1 =>
      let s := doRunsTrialStart m rnd net ant simLen c0 i
      (doRunsInitial ant, (simState m rnd s.1 s.2.1 s.2.2 simLen).2)

/-- Counterexample to claim C6 as stated: the infected-time table is NOT
reset between trials.  Population 2, seed node 0, one contact in the first
window, `probSI = 1`, zero draws, one timestep per trial: at the start of
the second trial the table reads `[0, 0]` (node 1's write from trial one
persists), not the initial configuration `[0, -1]`. -/
theorem doRuns_reset_counterexample :
    ((doRunsTrialStart ⟨1, 0, 1⟩ (fun _ => 0)
        (Direct.addUpdate (DynamicNet.emptyNet 2) 0 1 0 0) 0 1 0 1).2.1.infectedTime
      = [0, 0]) ∧ ([0, 0] : List ℚ) ≠ [0, -1] := by
  constructor
  · norm_num [doRunsTrialStart, doRunsInitial, simState, stepSystem, stepNodes,
      SIMap.fn, SIMap.fnLoop, List.range_succ, DynamicNet.checkInteraction,
      DynamicNet.getState, Direct.addUpdate, DynamicNet.pushState,
      DynamicNet.emptyNet, checkLoop, hitsWindow, Function.update,
      DynamicNet.writeInfectedTime]
    decide
  · simp

/-- Claim C6, amended: at the start of every Monte Carlo trial the infection
state vector is reset to the initial configuration (seed Infected, all
others Susceptible), but the infected-time table and the shared random
cursor are not reset — the net (with its infected-time writes) and cursor
entering trial `i + 1` are exactly the ones left behind by simulating
trial `i`; the table is initialised only once, before the first trial. -/
theorem doRuns_trial_reset (m : SIMap) (rnd : ℕ → ℚ) (net : DynamicNet)
    (ant : ℕ) (simLen c0 : ℕ) :
    (∀ i : ℕ, (doRunsTrialStart m rnd net ant simLen c0 i).1 = doRunsInitial ant) ∧
    ((doRunsTrialStart m rnd net ant simLen c0 0).2 =
      (net.writeInfectedTime ant 0, c0)) ∧
    (∀ i : ℕ, (doRunsTrialStart m rnd net ant simLen c0 (i + 1)).2 =
      (simState m rnd (doRunsInitial ant)
        (doRunsTrialStart m rnd net ant simLen c0 i).2.1
        (doRunsTrialStart m rnd net ant simLen c0 i).2.2 simLen).2) := by
  have hfst : ∀ i : ℕ, (doRunsTrialStart m rnd net ant simLen c0 i).1 = doRunsInitial ant := by
    intro i
    cases i with
    | zero => rfl
    | succ n => rfl
  refine ⟨hfst, rfl, ?_⟩
  intro i
  show (doRunsInitial ant,
      (simState m rnd (doRunsTrialStart m rnd net ant simLen c0 i).1
        (doRunsTrialStart m rnd net ant simLen c0 i).2.1
        (doRunsTrialStart m rnd net ant simLen c0 i).2.2 simLen).2).2 = _
  rw [hfst i]

/-- The direct-variant constructor loop: one
`addUpdate(from, to, fromTime, toTime)` call per parsed input record,
starting from the fresh net (numeric parsing is orthogonal to the storage
claims and the records are taken already parsed). -/
def buildDirect (size : ℕ) (recs : List (ℕ × ℕ × ℚ × ℚ)) : DynamicNet :=
  recs.foldl (fun net r => Direct.addUpdate net r.1 r.2.1 r.2.2.1 r.2.2.2)
    (DynamicNet.emptyNet size)

lemma flat_eq_iff {n a b c d : ℕ} (ha : a < n) (hc : c < n) :
    n * b + a = n * d + c ↔ b = d ∧ a = c := by
  constructor
  · intro h
    have hac : a = c := by
      have h1 : (n * b + a) % n = a := by
        rw [Nat.mul_add_mod]
        exact Nat.mod_eq_of_lt ha
      have h2 : (n * d + c) % n = c := by
        rw [Nat.mul_add_mod]
        exact Nat.mod_eq_of_lt hc
      rw [← h1, ← h2, h]
    refine ⟨?_, hac⟩
    have hn : 0 < n := lt_of_le_of_lt (Nat.zero_le a) ha
    have hbd : n * b = n * d := by omega
    exact Nat.eq_of_mul_eq_mul_left hn hbd
  · rintro ⟨rfl, rfl⟩
    rfl

lemma addUpdate_states (net : DynamicNet) (fr toN : ℕ) (t1 t2 : ℚ) (i : ℕ) :
    (Direct.addUpdate net fr toN t1 t2).states i =
      net.states i ++ (if i = net.m_size * toN + fr then [(t1, t2)] else [])
        ++ (if i = net.m_size * fr + toN then [(t1, t2)] else []) := by
  unfold Direct.addUpdate DynamicNet.pushState
  simp only [Function.update_apply]
  by_cases h2 : i = net.m_size * fr + toN
  · by_cases h1 : i = net.m_size * toN + fr
    · simp [h1, h2, ← h1 ▸ h2]
    · have hne : ¬ (net.m_size * fr + toN = net.m_size * toN + fr) := h2 ▸ h1
      simp [h1, h2, hne]
  · by_cases h1 : i = net.m_size * toN + fr
    · have hne : ¬ (net.m_size * toN + fr = net.m_size * fr + toN) := h1 ▸ h2
      simp [h1, h2, hne]
    · simp [h1, h2]

lemma addUpdate_m_size (net : DynamicNet) (fr toN : ℕ) (t1 t2 : ℚ) :
    (Direct.addUpdate net fr toN t1 t2).m_size = net.m_size := rfl

/-- Both cells written by a direct `addUpdate` may alias arbitrary other
cells only through the flat index, so symmetry of the whole table is kept
when the written pair is in range. -/
def symStates (net : DynamicNet) : Prop :=
  ∀ a b, a < net.m_size → b < net.m_size →
    net.states (net.m_size * b + a) = net.states (net.m_size * a + b)

lemma addUpdate_preserves_sym (net : DynamicNet) (fr toN : ℕ)
    (hf : fr < net.m_size) (ht : toN < net.m_size) (t1 t2 : ℚ)
    (hsym : symStates net) : symStates (Direct.addUpdate net fr toN t1 t2) := by
  intro a b ha hb
  rw [addUpdate_m_size] at ha hb
  rw [addUpdate_states, addUpdate_states, addUpdate_m_size]
  rw [hsym a b ha hb]
  have i1 : (net.m_size * b + a = net.m_size * toN + fr) ↔
      (net.m_size * a + b = net.m_size * fr + toN) := by
    rw [flat_eq_iff ha hf, flat_eq_iff hb ht]
    exact and_comm
  have i2 : (net.m_size * b + a = net.m_size * fr + toN) ↔
      (net.m_size * a + b = net.m_size * toN + fr) := by
    rw [flat_eq_iff ha ht, flat_eq_iff hb hf]
    exact and_comm
  by_cases hA : net.m_size * a + b = net.m_size * toN + fr
  · by_cases hB : net.m_size * a + b = net.m_size * fr + toN
    · rw [if_pos (i1.mpr hB), if_pos (i2.mpr hA), if_pos hA, if_pos hB]
    · rw [if_neg (fun h => hB (i1.mp h)), if_pos (i2.mpr hA), if_pos hA, if_neg hB]
      simp
  · by_cases hB : net.m_size * a + b = net.m_size * fr + toN
    · rw [if_pos (i1.mpr hB), if_neg (fun h => hA (i2.mp h)), if_neg hA, if_pos hB]
      simp
    · rw [if_neg (fun h => hB (i1.mp h)), if_neg (fun h => hA (i2.mp h)),
        if_neg hA, if_neg hB]

lemma addUpdate_mem_mono (net : DynamicNet) (fr toN : ℕ) (t1 t2 : ℚ) (i : ℕ)
    (p : ℚ × ℚ) (hp : p ∈ net.states i) :
    p ∈ (Direct.addUpdate net fr toN t1 t2).states i := by
  rw [addUpdate_states]
  exact List.mem_append.mpr (Or.inl (List.mem_append.mpr (Or.inl hp)))

lemma addUpdate_mem_self (net : DynamicNet) (fr toN : ℕ) (t1 t2 : ℚ) :
    (t1, t2) ∈ (Direct.addUpdate net fr toN t1 t2).states (net.m_size * toN + fr) ∧
    (t1, t2) ∈ (Direct.addUpdate net fr toN t1 t2).states (net.m_size * fr + toN) := by
  constructor <;> rw [addUpdate_states] <;> simp

/-- One step of the direct constructor fold. -/
def directStep (net : DynamicNet) (r : ℕ × ℕ × ℚ × ℚ) : DynamicNet :=
  Direct.addUpdate net r.1 r.2.1 r.2.2.1 r.2.2.2

lemma foldl_directStep_m_size (recs : List (ℕ × ℕ × ℚ × ℚ)) :
    ∀ net : DynamicNet, (recs.foldl directStep net).m_size = net.m_size := by
  induction recs with
  | nil => intro net; rfl
  | cons r rest ih =>
      intro net
      rw [List.foldl_cons, ih]
      rfl

lemma foldl_directStep_mem_mono (recs : List (ℕ × ℕ × ℚ × ℚ)) :
    ∀ (net : DynamicNet) (i : ℕ) (p : ℚ × ℚ), p ∈ net.states i →
      p ∈ (recs.foldl directStep net).states i := by
  induction recs with
  | nil => intro net i p hp; exact hp
  | cons r rest ih =>
      intro net i p hp
      rw [List.foldl_cons]
      exact ih _ i p (addUpdate_mem_mono net r.1 r.2.1 r.2.2.1 r.2.2.2 i p hp)

lemma foldl_directStep_sym (recs : List (ℕ × ℕ × ℚ × ℚ)) :
    ∀ net : DynamicNet, (∀ r ∈ recs, r.1 < net.m_size ∧ r.2.1 < net.m_size) →
      symStates net → symStates (recs.foldl directStep net) := by
  induction recs with
  | nil => intro net _ hsym; exact hsym
  | cons r rest ih =>
      intro net hin hsym
      rw [List.foldl_cons]
      refine ih _ ?_ ?_
      · intro q hq
        exact hin q (List.mem_cons_of_mem r hq)
      · exact addUpdate_preserves_sym net r.1 r.2.1
          (hin r (List.mem_cons_self r rest)).1 (hin r (List.mem_cons_self r rest)).2
          r.2.2.1 r.2.2.2 hsym

lemma foldl_directStep_mem_recs (recs : List (ℕ × ℕ × ℚ × ℚ)) :
    ∀ net : DynamicNet, ∀ r ∈ recs,
      (r.2.2.1, r.2.2.2) ∈ (recs.foldl directStep net).states (net.m_size * r.2.1 + r.1) ∧
      (r.2.2.1, r.2.2.2) ∈ (recs.foldl directStep net).states (net.m_size * r.1 + r.2.1) := by
  induction recs with
  | nil => intro net r hr; exact absurd hr (List.not_mem_nil r)
  | cons r0 rest ih =>
      intro net r hr
      rw [List.foldl_cons]
      rcases List.mem_cons.mp hr with rfl | hr2
      · constructor
        · exact foldl_directStep_mem_mono rest _ _ _
            (addUpdate_mem_self net r.1 r.2.1 r.2.2.1 r.2.2.2).1
        · exact foldl_directStep_mem_mono rest _ _ _
            (addUpdate_mem_self net r.1 r.2.1 r.2.2.1 r.2.2.2).2
      · exact ih (directStep net r0) r hr2

lemma symStates_emptyNet (size : ℕ) : symStates (DynamicNet.emptyNet size) :=
  fun _ _ _ _ => rfl

/-- Claim C5: after any sequence of in-range direct-variant insertions, the
cell read by `checkInteraction(a, b, ...)` (`getState(a, b)`) and the cell
read with the arguments swapped hold identical sequences, and every inserted
record `(t1, t2)` is retrievable from both direction cells. -/
theorem direct_storage_symmetric (size : ℕ) (recs : List (ℕ × ℕ × ℚ × ℚ))
    (hin : ∀ r ∈ recs, r.1 < size ∧ r.2.1 < size) :
    (∀ a b, a < size → b < size →
      (buildDirect size recs).getState a b = (buildDirect size recs).getState b a) ∧
    ∀ r ∈ recs,
      (r.2.2.1, r.2.2.2) ∈ (buildDirect size recs).getState r.1 r.2.1 ∧
      (r.2.2.1, r.2.2.2) ∈ (buildDirect size recs).getState r.2.1 r.1 := by
  have hbuild : buildDirect size recs =
      recs.foldl directStep (DynamicNet.emptyNet size) := rfl
  have hms : (buildDirect size recs).m_size = size := by
    rw [hbuild]
    exact foldl_directStep_m_size recs _
  constructor
  · intro a b ha hb
    unfold DynamicNet.getState
    rw [hms]
    have hsym := foldl_directStep_sym recs (DynamicNet.emptyNet size) hin
      (symStates_emptyNet size)
    have := hsym a b (by rw [foldl_directStep_m_size]; exact ha)
      (by rw [foldl_directStep_m_size]; exact hb)
    rw [foldl_directStep_m_size] at this
    rw [hbuild]
    exact this
  · intro r hr
    have hmem := foldl_directStep_mem_recs recs (DynamicNet.emptyNet size) r hr
    unfold DynamicNet.getState
    rw [hms, hbuild]
    exact ⟨hmem.1, hmem.2⟩

/-- Concrete witness for claim C5: one record `(0, 1, 3, 4)` in a two-node
net is stored symmetrically and retrievable in both directions. -/
theorem direct_storage_symmetric_witness :
    ((buildDirect 2 [(0, 1, 3, 4)]).getState 0 1 =
      (buildDirect 2 [(0, 1, 3, 4)]).getState 1 0) ∧
    ((3 : ℚ), (4 : ℚ)) ∈ (buildDirect 2 [(0, 1, 3, 4)]).getState 0 1 := by
  have h := direct_storage_symmetric 2 [(0, 1, 3, 4)] (by decide)
  exact ⟨h.1 0 1 (by decide) (by decide),
    (h.2 (0, 1, 3, 4) (List.mem_cons_self _ _)).1⟩

/-- The observable outcome of `main` (`dynamic_nets_direct.cc`): the exit
code, whether the usage text was printed, whether the bad-ant diagnostic was
printed, and whether the simulation branch ran.  `argc` counts the program
name plus its arguments as in C; `num` and `ant` are the converted `atoi`
values of `SIZE` and `ANT`. -/
structure MainResult where
  exitCode : ℕ
  printedUsage : Bool
  printedAntError : Bool
  ranSimulations : Bool
deriving DecidableEq

/-- `main`'s control flow: reject `argc < 9 || argc > 11` with the usage text
and exit code 1; run every ant when `ant == -1`; run one ant when
`0 < ant && ant <= num`; otherwise print the ant diagnostic and exit 1;
both run branches fall through to `return 0`. -/
def mainModel (argc : ℕ) (num ant : ℤ) : MainResult :=
  if argc < 9 ∨ 11 < argc then ⟨1, true, false, false⟩
  else if ant = -1 then ⟨0, false, false, true⟩
  else if 0 < ant ∧ ant ≤ num then ⟨0, false, false, true⟩
  else ⟨1, false, true, false⟩

/-- Claim C8: the program exits with code 1 exactly when the argument count
fails `main`'s check (`argc < 9` or `argc > 11`, printing the usage text) or
when the seed argument `ant` is not `-1` and lies outside `[1, num]`
(printing the diagnostic); in every other case the simulations run and the
exit code is 0. -/
theorem main_exit_codes (argc : ℕ) (num ant : ℤ) :
    ((mainModel argc num ant).exitCode = 1 ↔
      ((argc < 9 ∨ 11 < argc) ∨ (ant ≠ -1 ∧ ¬ (1 ≤ ant ∧ ant ≤ num)))) ∧
    ((mainModel argc num ant).exitCode = 0 ↔
      ¬ ((argc < 9 ∨ 11 < argc) ∨ (ant ≠ -1 ∧ ¬ (1 ≤ ant ∧ ant ≤ num)))) ∧
    ((mainModel argc num ant).printedUsage = true ↔ (argc < 9 ∨ 11 < argc)) ∧
    ((mainModel argc num ant).printedAntError = true ↔
      (¬ (argc < 9 ∨ 11 < argc) ∧ ant ≠ -1 ∧ ¬ (1 ≤ ant ∧ ant ≤ num))) ∧
    ((mainModel argc num ant).ranSimulations = true ↔
      (mainModel argc num ant).exitCode = 0) := by
  have hiff : (0 < ant ∧ ant ≤ num) ↔ (1 ≤ ant ∧ ant ≤ num) := by
    constructor
    · intro h; exact ⟨h.1, h.2⟩
    · intro h; exact ⟨h.1, h.2⟩
  unfold mainModel
  by_cases h1 : argc < 9 ∨ 11 < argc
  · rw [if_pos h1]
    refine ⟨by simp [h1], by simp [h1], by simp [h1], by simp [h1], by simp⟩
  · rw [if_neg h1]
    by_cases h2 : ant = -1
    · rw [if_pos h2]
      refine ⟨by simp [h1, h2], by simp [h1, h2], by simp [h1], by simp [h2], by simp⟩
    · rw [if_neg h2]
      by_cases h3 : 0 < ant ∧ ant ≤ num
      · rw [if_pos h3]
        refine ⟨by simp [h1, h2, hiff.mp h3], by simp [h1, h2, hiff.mp h3],
          by simp [h1], by simp [hiff.mp h3], by simp⟩
      · rw [if_neg h3]
        refine ⟨by simp [h1, h2, hiff.not.mp h3], by simp [h1, h2, hiff.not.mp h3],
          by simp [h1], by simp [h1, h2, hiff.not.mp h3], by simp⟩

/-- Claim C9: the `vector::at`-backed accessors fail with an out-of-bounds
error (modelled `none`) exactly for node indices outside `[0, N)`, and for
indices inside `[0, N)` they read and write the table entry without error. -/
theorem infectedTime_accessor_bounds (net : DynamicNet) (node : ℤ) (time : ℚ)
    (hlen : net.infectedTime.length = net.m_size) :
    ((net.getInfectedTime node).isSome ↔
      (0 ≤ node ∧ node < (net.m_size : ℤ))) ∧
    ((net.setInfectedTime node time).isSome ↔
      (0 ≤ node ∧ node < (net.m_size : ℤ))) ∧
    (0 ≤ node → node < (net.m_size : ℤ) →
      net.getInfectedTime node = net.infectedTime[node.toNat]? ∧
      net.setInfectedTime node time =
        some { net with infectedTime := net.infectedTime.set node.toNat time }) := by
  refine ⟨?_, ?_, ?_⟩
  · unfold DynamicNet.getInfectedTime
    by_cases h0 : 0 ≤ node
    · rw [if_pos h0]
      by_cases hn : node.toNat < net.infectedTime.length
      · rcases List.getElem?_eq_some_iff.mpr ⟨hn, rfl⟩ with h
        rw [h]
        simp only [Option.isSome_some, true_iff]
        exact ⟨h0, by rw [← hlen]; exact (Int.toNat_lt h0).mp hn⟩
      · rw [List.getElem?_eq_none_iff.mpr (le_of_not_lt hn)]
        simp only [Option.isSome_none, Bool.false_eq_true, false_iff]
        rintro ⟨_, hlt⟩
        exact hn ((Int.toNat_lt h0).mpr (by rw [hlen]; exact hlt))
    · rw [if_neg h0]
      simp only [Option.isSome_none, Bool.false_eq_true, false_iff]
      rintro ⟨h, _⟩
      exact h0 h
  · unfold DynamicNet.setInfectedTime
    by_cases hc : 0 ≤ node ∧ node.toNat < net.infectedTime.length
    · rw [if_pos hc]
      simp only [Option.isSome_some, true_iff]
      exact ⟨hc.1, by rw [← hlen]; exact (Int.toNat_lt hc.1).mp hc.2⟩
    · rw [if_neg hc]
      simp only [Option.isSome_none, Bool.false_eq_true, false_iff]
      rintro ⟨h0, hlt⟩
      exact hc ⟨h0, (Int.toNat_lt h0).mpr (by rw [hlen]; exact hlt)⟩
  · intro h0 hlt
    constructor
    · unfold DynamicNet.getInfectedTime
      rw [if_pos h0]
    · unfold DynamicNet.setInfectedTime
      rw [if_pos ⟨h0, (Int.toNat_lt h0).mpr (by rw [hlen]; exact hlt)⟩]

/-- Concrete witness for claim C9 on a two-node net at the in-range node 1. -/
theorem infectedTime_accessor_bounds_witness :
    ((((DynamicNet.emptyNet 2).getInfectedTime 1).isSome ↔
      (0 ≤ (1 : ℤ) ∧ (1 : ℤ) < ((DynamicNet.emptyNet 2).m_size : ℤ))) ∧
    ((((DynamicNet.emptyNet 2).setInfectedTime 1 7).isSome ↔
      (0 ≤ (1 : ℤ) ∧ (1 : ℤ) < ((DynamicNet.emptyNet 2).m_size : ℤ)))) ∧
    (0 ≤ (1 : ℤ) → (1 : ℤ) < ((DynamicNet.emptyNet 2).m_size : ℤ) →
      (DynamicNet.emptyNet 2).getInfectedTime 1 =
        (DynamicNet.emptyNet 2).infectedTime[(1 : ℤ).toNat]? ∧
      (DynamicNet.emptyNet 2).setInfectedTime 1 7 =
        some { DynamicNet.emptyNet 2 with
          infectedTime := (DynamicNet.emptyNet 2).infectedTime.set (1 : ℤ).toNat 7 })) :=
  infectedTime_accessor_bounds (DynamicNet.emptyNet 2) 1 7 (by decide)

/-- Three-way lexicographic comparison realising the sign behaviour of
`std::string::compare` on char sequences (the source only tests the result
against `0`): character order first, then length as tie-break. -/
def strCompare3 : List Char → List Char → ℤ
  | [], [] => 0
  | [], _ :: _ => -1
  | _ :: _, [] => 1
  | a :: as, b :: bs =>
      if a.toNat < b.toNat then -1
      else if b.toNat < a.toNat then 1
      else strCompare3 as bs

/-- `s.compare(pos, len, other)`: compare the substring of `s` starting at
`pos` of length at most `len` against the whole of `other`. -/
def cppCompareSub (s : List Char) (pos len : ℕ) (other : List Char) : ℤ :=
  strCompare3 ((s.drop pos).take len) other

/-- The per-line emission loop of the indirect-variant constructor
(`dynamic_nets.h`): for `i = 3 .. m_size + 2` the loop sets
`from = atoi(record[2]) - 1`, `to = i - 3`, and calls `addUpdate` with
`(atof(record[1]), atof(record[i]))` iff `record[i].compare(0, 2, none) != 0`
where `none = "NA"`.  The numeric conversions are abstract parameters (C
`strtol`/`strtod` semantics are orthogonal to the emission test); a missing
column reads as the empty string. -/
def indirectLineRecords (sz : ℕ) (atoiF : List Char → ℤ) (atofF : List Char → ℚ)
    (record : List (List Char)) : List (ℤ × ℕ × ℚ × ℚ) :=
  (List.range sz).filterMap fun j =>
    if cppCompareSub (record.getD (j + 3) []) 0 2 ['N', 'A'] ≠ 0 then
      some (atoiF (record.getD 2 []) - 1, j, atofF (record.getD 1 []),
        atofF (record.getD (j + 3) []))
    else none

lemma strCompare3_eq_zero_iff : ∀ a b : List Char, strCompare3 a b = 0 ↔ a = b := by
  intro a
  induction a with
  | nil =>
      intro b
      cases b with
      | nil => simp [strCompare3]
      | cons c cs => simp [strCompare3]
  | cons c cs ih =>
      intro b
      cases b with
      | nil => simp [strCompare3]
      | cons d ds =>
          rw [strCompare3]
          by_cases h1 : c.toNat < d.toNat
          · rw [if_pos h1]
            simp only [neg_eq_zero, one_ne_zero, false_iff]
            norm_num
            intro hc
            exact absurd (hc ▸ h1) (lt_irrefl _)
          · rw [if_neg h1]
            by_cases h2 : d.toNat < c.toNat
            · rw [if_pos h2]
              simp only [one_ne_zero, false_iff]
              intro hcon
              rcases List.cons.injEq c cs d ds ▸ hcon with ⟨hcd, _⟩
              exact absurd (hcd ▸ h2) (lt_irrefl _)
            · rw [if_neg h2]
              have hcd : c = d := Char.eq_of_val_eq
                (UInt32.toNat.inj (le_antisymm (le_of_not_lt h2) (le_of_not_lt h1)))
              rw [ih ds]
              constructor
              · intro h; rw [hcd, h]
              · intro h
                rcases List.cons.injEq c cs d ds ▸ h with ⟨_, ht⟩
                exact ht

lemma cppCompareSub_na_eq_zero_iff (s : List Char) :
    cppCompareSub s 0 2 ['N', 'A'] = 0 ↔ s.take 2 = ['N', 'A'] := by
  unfold cppCompareSub
  rw [List.drop_zero]
  exact strCompare3_eq_zero_iff (s.take 2) ['N', 'A']

/-- Claim C10: the indirect loader emits a record for node column `j` iff the
column value does not begin with the two characters `"NA"` — `"NA123"` and
`"NAN"` are skipped exactly like the literal `"NA"`, while a value need not
equal `"NA"` exactly to be skipped. -/
theorem indirect_na_prefix_skip (sz : ℕ) (atoiF : List Char → ℤ)
    (atofF : List Char → ℚ) (record : List (List Char)) (j : ℕ) (hj : j < sz) :
    (∃ r ∈ indirectLineRecords sz atoiF atofF record, r.2.1 = j) ↔
      ¬ (record.getD (j + 3) []).take 2 = ['N', 'A'] := by
  constructor
  · rintro ⟨r, hr, hrj⟩
    rcases List.mem_filterMap.mp hr with ⟨a, _, hfa⟩
    by_cases hc : cppCompareSub (record.getD (a + 3) []) 0 2 ['N', 'A'] ≠ 0
    · rw [if_pos hc] at hfa
      have ha : a = j := by
        have h2 := congrArg
          (fun z : Option (ℤ × ℕ × ℚ × ℚ) => (z.getD (0, 0, 0, 0)).2.1) hfa
        simp only [Option.getD_some] at h2
        exact h2.trans hrj
      subst ha
      exact fun hna => hc ((cppCompareSub_na_eq_zero_iff _).mpr hna)
    · rw [if_neg hc] at hfa
      exact absurd hfa (Option.noConfusion)
  · intro hna
    refine ⟨(atoiF (record.getD 2 []) - 1, j, atofF (record.getD 1 []),
      atofF (record.getD (j + 3) [])), ?_, rfl⟩
    apply List.mem_filterMap.mpr
    refine ⟨j, List.mem_range.mpr hj, ?_⟩
    rw [if_pos (fun h0 => hna ((cppCompareSub_na_eq_zero_iff _).mp h0))]

/-- Concrete witness for claim C10: in a line whose column for node 1 is
`"NAN"`, no record is emitted for node 1 (the first two characters match
`"NA"`), exactly as for a literal `"NA"` column. -/
theorem indirect_na_prefix_skip_witness :
    ¬ (∃ r ∈ indirectLineRecords 3 (fun _ => 0) (fun _ => 0)
        [[], [], ['7'], ['N', 'A'], ['N', 'A', 'N'], ['1']], r.2.1 = 1) := by
  have h := indirect_na_prefix_skip 3 (fun _ => 0) (fun _ => 0)
    [[], [], ['7'], ['N', 'A'], ['N', 'A', 'N'], ['1']] 1 (by decide)
  intro hex
  exact (h.mp hex) (by decide)
